import Mathlib

/-!
Verification of the voice-activated-servo service
(src/src/models/service.py) against its specification.

The embedding models the protobuf number values of the configuration as
rationals, collaborator handles by their resolved dependency names, and
the observable behaviour of a dispatch as a trace of collaborator calls
plus a returned value or a propagated actuator failure.
-/

namespace VoiceServo

/-- Raw component configuration attributes as the service reads them.
Each top-level key may be absent (modelled by none); the commands
attribute is a struct whose fields are phrase keys mapped to lists of
number values (reals, modelled as rationals), kept in struct iteration
order. -/
structure RawConfig where
  speech_service : Option String
  servo : Option String
  commands : Option (List (String × List ℚ))
deriving DecidableEq

/-- Abstract configuration error raised by validate_config (a ValueError
in the source), tagged with the failing key or phrase. -/
inductive ConfigError where
  | missingKey : String → ConfigError
  | emptyAngles : String → ConfigError
  | angleOutOfRange : String → ConfigError
deriving DecidableEq

/-- Inner loop of Service.validate_config over the angle values of one
phrase (lines 81 to 84): each raw value must satisfy 0 <= angle <= 180. -/
def checkAngles (phrase : String) : List ℚ → Except ConfigError Unit
  | [] => .ok ()
  | q :: rest =>
    if 0 ≤ q ∧ q ≤ 180 then checkAngles phrase rest
    else .error (.angleOutOfRange phrase)

/-- Loop of Service.validate_config over the fields of the commands
struct (lines 71 to 84). The isinstance(phrase, str) test of the source
is vacuously true here because struct field keys are strings by
construction, exactly as for protobuf structs. -/
def checkCommands : List (String × List ℚ) → Except ConfigError Unit
  | [] => .ok ()
  | (phrase, angles) :: rest =>
    if angles.isEmpty then .error (.emptyAngles phrase)
    else
      match checkAngles phrase angles with
      | .error e => .error e
      | .ok _ => checkCommands rest

/-- Embedding of Service.validate_config (lines 42 to 87): the three
required keys are checked for presence in order, then the commands
struct is validated, and on success the speech service name and the
servo name are returned as the required dependencies. -/
def validate_config (c : RawConfig) : Except ConfigError (List String × List String) :=
  match c.speech_service with
  | none => .error (.missingKey "speech_service")
  | some speech_service_name =>
    match c.servo with
    | none => .error (.missingKey "servo")
    | some servo_name =>
      match c.commands with
      | none => .error (.missingKey "commands")
      | some commands =>
        match checkCommands commands with
        | .error e => .error e
        | .ok _ => .ok ([speech_service_name, servo_name], [])

/-- Truncation toward zero, the behaviour of the Python int() conversion
applied to a real value. -/
def pytrunc (q : ℚ) : ℤ := if 0 ≤ q then ⌊q⌋ else -⌊-q⌋

/-- Mutable fields of the Service instance. Collaborator handles are
modelled by the resolved dependency name that bound them; none means the
field was never set. -/
structure ServiceState where
  speech_service : Option String
  servo : Option String
  commands : List (String × List ℤ)
deriving DecidableEq

/-- One iteration of the dependency resolution loop of
Service.reconfigure (lines 105 to 111): a resolved dependency whose name
equals the configured speech service name or servo name overwrites the
corresponding field, and a dependency matching neither is skipped. -/
def bindDep (ssname svname : String) (st : ServiceState) (d : String) : ServiceState :=
  let st1 := if d = ssname then { st with speech_service := some d } else st
  if d = svname then { st1 with servo := some d } else st1

/-- Embedding of Service.reconfigure (lines 89 to 126): resolve the two
named dependencies by iterating over the resolved dependency names, then
rebuild the command table, converting every angle with int(), which
truncates toward zero. A missing attribute reads as the protobuf default
(empty string or empty struct). -/
def reconfigure (st : ServiceState) (c : RawConfig) (deps : List String) : ServiceState :=
  let ssname := c.speech_service.getD ""
  let svname := c.servo.getD ""
  let st1 := deps.foldl (bindDep ssname svname) st
  { st1 with commands := (c.commands.getD []).map (fun pr => (pr.1, pr.2.map pytrunc)) }

/-- Python str.lower applied to a string, modelled characterwise. -/
def lowerChars (s : String) : List Char := s.data.map Char.toLower

/-- Python substring containment test of the source (line 151):
phrase.lower() in heard_text.lower(). -/
def phraseMatches (phrase text : String) : Bool :=
  decide (lowerChars phrase <:+: lowerChars text)

/-- Observable collaborator calls made during one do_command dispatch:
poll is the speech_service.get_commands call, move is a servo.move call
with its angle, and sleep is the fixed one second asyncio.sleep. -/
inductive Event where
  | poll : Event
  | move : ℤ → Event
  | sleep : Event
deriving DecidableEq

/-- Failure of a servo.move call, carrying the angle of the failing
call; it propagates out of do_command unhandled. -/
inductive ActuatorError where
  | moveFailed : ℤ → ActuatorError
deriving DecidableEq

/-- Inner angle loop of Service.do_command (lines 153 to 156). The
argument fail tells whether the n-th servo.move call of this dispatch
fails; a failing call still appears in the trace, and the exception
aborts the rest of the loop. A successful move is followed by the fixed
sleep. Returns the trace, the updated call counter, and the error if
one occurred. -/
def runAngles (angles : List ℤ) (fail : Nat → Bool) (n : Nat) :
    List Event × Nat × Option ActuatorError :=
  match angles with
  | [] => ([], n, none)
  | a :: rest =>
    if fail n then ([Event.move a], n + 1, some (.moveFailed a))
    else
      let r := runAngles rest fail (n + 1)
      (Event.move a :: Event.sleep :: r.1, r.2.1, r.2.2)

/-- Result of the phrase loop of do_command: trace of actuator calls,
phrases appended to commands_heard, updated call counter, and the error
if a move failed. -/
structure LoopResult where
  events : List Event
  matched : List String
  calls : Nat
  err : Option ActuatorError
deriving DecidableEq

/-- Phrase loop of Service.do_command (lines 149 to 157): for each table
entry in insertion order, if the lower-cased phrase occurs in the
lower-cased text, move through all its angles and then append the phrase
to commands_heard; a move failure propagates immediately, discarding the
accumulated list. -/
def runLoop (cmds : List (String × List ℤ)) (text : String) (fail : Nat → Bool)
    (n : Nat) : LoopResult :=
  match cmds with
  | [] => ⟨[], [], n, none⟩
  | (phrase, angles) :: rest =>
    if phraseMatches phrase text then
      match runAngles angles fail n with
      | (evs, n1, some e) => ⟨evs, [], n1, some e⟩
      | (evs, n1, none) =>
        let r := runLoop rest text fail n1
        ⟨evs ++ r.events, phrase :: r.matched, r.calls, r.err⟩
    else runLoop rest text fail n

/-- Result mapping returned by do_command. A field holding none models a
key that is absent from the returned dict. -/
structure Outcome where
  status : String
  voice_commands : Option (List String)
  heard : Option String
deriving DecidableEq

/-- Embedding of Service.do_command (lines 128 to 161). listen is the
truthiness of command.get with key listen_for_command; utts is the list
returned by speech_service.get_commands with number 1, an entry being
none for a Python None; fail gives the outcome of each servo.move call
in order. Returns the trace of collaborator calls together with either
the propagated ActuatorError or the returned value, where none models
falling off the end of the function and returning None. -/
def do_command (st : ServiceState) (listen : Bool) (utts : List (Option String))
    (fail : Nat → Bool) : List Event × Except ActuatorError (Option Outcome) :=
  if listen then
    match utts with
    | [] => ([Event.poll], .ok (some ⟨"no voice command heard", none, none⟩))
    | u :: _ =>
      match u with
      | none => ([Event.poll], .ok (some ⟨"no voice command heard", none, none⟩))
      | some heard_text =>
        if heard_text = "" then
          ([Event.poll], .ok (some ⟨"no voice command heard", none, none⟩))
        else
          let r := runLoop st.commands heard_text fail 0
          match r.err with
          | some e => (Event.poll :: r.events, .error e)
          | none =>
            if r.matched.length > 0 then
              (Event.poll :: r.events,
                .ok (some ⟨"voice commands heard", some r.matched, some heard_text⟩))
            else
              (Event.poll :: r.events,
                .ok (some ⟨"no voice commands heard", none, some heard_text⟩))
  else ([], .ok none)

/-- Phrases of the table whose lower-cased form occurs in the lower-cased
text, in table order: the pure matching phase. -/
def matchedPhrases (cmds : List (String × List ℤ)) (text : String) : List String :=
  (cmds.filter (fun pr => phraseMatches pr.1 text)).map (fun pr => pr.1)

/-- Concatenation of the angle sequences of all matched phrases, in
table order. -/
def allAngles (cmds : List (String × List ℤ)) (text : String) : List ℤ :=
  (cmds.filter (fun pr => phraseMatches pr.1 text)).flatMap (fun pr => pr.2)

/-- Trace of one move per angle, each followed by the fixed delay. -/
def moveBlocks (angles : List ℤ) : List Event :=
  angles.flatMap (fun a => [Event.move a, Event.sleep])

/-- Servo move calls appearing in a trace, in order. -/
def movesOf (evs : List Event) : List ℤ :=
  evs.filterMap (fun e => match e with | .move a => some a | _ => none)

/-- Success test for an Except value. -/
def exceptOk {ε α : Type _} : Except ε α → Bool
  | .ok _ => true
  | .error _ => false

theorem checkAngles_ok_iff (phrase : String) (l : List ℚ) :
    checkAngles phrase l = .ok () ↔ ∀ q ∈ l, 0 ≤ q ∧ q ≤ 180 := by
  induction l with
  | nil => simp [checkAngles]
  | cons q rest ih =>
    by_cases h : 0 ≤ q ∧ q ≤ 180
    · simp [checkAngles, h, ih]
    · simp only [checkAngles, if_neg h]
      constructor
      · intro hc; cases hc
      · intro hall; exact absurd (hall q (by simp)) h

theorem checkCommands_ok_iff (cmds : List (String × List ℚ)) :
    checkCommands cmds = .ok () ↔
      ∀ pr ∈ cmds, pr.2 ≠ [] ∧ ∀ q ∈ pr.2, 0 ≤ q ∧ q ≤ 180 := by
  induction cmds with
  | nil => simp [checkCommands]
  | cons pr rest ih =>
    obtain ⟨phrase, angles⟩ := pr
    by_cases he : angles.isEmpty
    · have hnil : angles = [] := List.isEmpty_iff.mp he
      subst hnil
      simp only [checkCommands, if_pos he]
      constructor
      · intro hc; cases hc
      · intro hall
        exact absurd rfl (hall (phrase, []) (by simp) |>.1)
    · cases hca : checkAngles phrase angles with
      | error e =>
        have hna : ¬ ∀ q ∈ angles, 0 ≤ q ∧ q ≤ 180 := by
          intro hall
          rw [(checkAngles_ok_iff phrase angles).mpr hall] at hca
          cases hca
        simp only [checkCommands, if_neg he, hca]
        constructor
        · intro hc; cases hc
        · intro hall
          exact absurd (hall (phrase, angles) (by simp)).2 hna
      | ok u =>
        have hall : ∀ q ∈ angles, 0 ≤ q ∧ q ≤ 180 :=
          (checkAngles_ok_iff phrase angles).mp (by rw [hca])
        have hne : angles ≠ [] := by
          intro hc; rw [hc] at he; exact he (by simp)
        simp only [checkCommands, if_neg he, hca, ih]
        constructor
        · intro hrest
          intro x hx
          rcases List.mem_cons.mp hx with h1 | h2
          · rw [h1]; exact ⟨hne, hall⟩
          · exact hrest x h2
        · intro hcons x hx
          exact hcons x (List.mem_cons_of_mem _ hx)

theorem validate_config_ok_iff (c : RawConfig) :
    exceptOk (validate_config c) = true ↔
      (c.speech_service.isSome = true ∧ c.servo.isSome = true ∧
        c.commands.isSome = true ∧
        ∀ pr ∈ c.commands.getD [], pr.2 ≠ [] ∧ ∀ q ∈ pr.2, 0 ≤ q ∧ q ≤ 180) := by
  obtain ⟨ss, sv, cm⟩ := c
  cases ss with
  | none => simp [validate_config, exceptOk]
  | some ssn =>
    cases sv with
    | none => simp [validate_config, exceptOk]
    | some svn =>
      cases cm with
      | none => simp [validate_config, exceptOk]
      | some cmds =>
        cases hcc : checkCommands cmds with
        | error e =>
          have hne : ¬ ∀ pr ∈ cmds, pr.2 ≠ [] ∧ ∀ q ∈ pr.2, 0 ≤ q ∧ q ≤ 180 := by
            intro hall
            rw [(checkCommands_ok_iff cmds).mpr hall] at hcc
            cases hcc
          simp only [validate_config, hcc, exceptOk]
          constructor
          · intro hc; exact absurd hc (by simp)
          · intro hr; exact absurd hr.2.2.2 hne
        | ok u =>
          have hthis : ∀ pr ∈ cmds, pr.2 ≠ [] ∧ ∀ q ∈ pr.2, 0 ≤ q ∧ q ≤ 180 :=
            (checkCommands_ok_iff cmds).mp (by rw [hcc])
          simp only [validate_config, hcc, exceptOk]
          constructor
          · intro _; exact ⟨rfl, rfl, rfl, hthis⟩
          · intro _; trivial

theorem validate_config_ok_value (c : RawConfig) (ss sv : String)
    (hss : c.speech_service = some ss) (hsv : c.servo = some sv)
    (hok : exceptOk (validate_config c) = true) :
    validate_config c = .ok ([ss, sv], []) := by
  obtain ⟨s1, s2, cm⟩ := c
  dsimp only at hss hsv
  subst hss; subst hsv
  cases cm with
  | none => simp [validate_config, exceptOk] at hok
  | some cmds =>
    cases hcc : checkCommands cmds with
    | error e => simp [validate_config, hcc, exceptOk] at hok
    | ok u => simp [validate_config, hcc]

theorem moveBlocks_cons (a : ℤ) (l : List ℤ) :
    moveBlocks (a :: l) = Event.move a :: Event.sleep :: moveBlocks l := by
  simp [moveBlocks]

theorem movesOf_moveBlocks (l : List ℤ) : movesOf (moveBlocks l) = l := by
  induction l with
  | nil => rfl
  | cons a t ih => simp only [moveBlocks_cons, movesOf, List.filterMap_cons] at ih ⊢; simp [ih]

theorem runAngles_noFail (angles : List ℤ) (fail : Nat → Bool) (n : Nat)
    (h : ∀ i, i < angles.length → fail (n + i) = false) :
    runAngles angles fail n = (moveBlocks angles, n + angles.length, none) := by
  induction angles generalizing n with
  | nil => simp [runAngles, moveBlocks]
  | cons a rest ih =>
    have h0 : fail n = false := by simpa using h 0 (by simp)
    have hrest : ∀ i, i < rest.length → fail (n + 1 + i) = false := by
      intro i hi
      have := h (i + 1) (by simpa using Nat.succ_lt_succ hi)
      simpa [Nat.add_assoc, Nat.add_comm 1 i] using this
    simp [runAngles, h0, ih (n + 1) hrest, moveBlocks_cons]
    omega

theorem runAngles_failAt (angles : List ℤ) (n j : Nat) (hj : j < angles.length) :
    runAngles angles (fun m => m == n + j) n =
      (moveBlocks (angles.take j) ++ [Event.move (angles.get ⟨j, hj⟩)], n + j + 1,
        some (.moveFailed (angles.get ⟨j, hj⟩))) := by
  induction angles generalizing n j with
  | nil => simp at hj
  | cons a rest ih =>
    cases j with
    | zero =>
      simp [runAngles, moveBlocks]
    | succ j' =>
      have hne : (n == n + (j' + 1)) = false := by simp
      have hstep : n + (j' + 1) = (n + 1) + j' := by omega
      have hj' : j' < rest.length := by simpa using Nat.lt_of_succ_lt_succ hj
      rw [runAngles.eq_def]
      simp only [hne, hstep]
      simp [ih (n + 1) j' hj', List.take_succ_cons, moveBlocks_cons]
      omega

theorem runAngles_append_ok (xs ys : List ℤ) (fail : Nat → Bool) (n : Nat)
    (h : (runAngles xs fail n).2.2 = none) :
    runAngles (xs ++ ys) fail n =
      ((runAngles xs fail n).1 ++ (runAngles ys fail (runAngles xs fail n).2.1).1,
        (runAngles ys fail (runAngles xs fail n).2.1).2.1,
        (runAngles ys fail (runAngles xs fail n).2.1).2.2) := by
  induction xs generalizing n with
  | nil => simp [runAngles]
  | cons a rest ih =>
    cases hf : fail n with
    | true => simp [runAngles, hf] at h
    | false =>
      have h' : (runAngles rest fail (n + 1)).2.2 = none := by
        simpa [runAngles, hf] using h
      simp [runAngles, hf, ih (n + 1) h']

theorem runAngles_append_err (xs ys : List ℤ) (fail : Nat → Bool) (n : Nat)
    (h : (runAngles xs fail n).2.2 ≠ none) :
    runAngles (xs ++ ys) fail n = runAngles xs fail n := by
  induction xs generalizing n with
  | nil => simp [runAngles] at h
  | cons a rest ih =>
    cases hf : fail n with
    | true => simp [runAngles, hf]
    | false =>
      have h' : (runAngles rest fail (n + 1)).2.2 ≠ none := by
        simpa [runAngles, hf] using h
      simp [runAngles, hf, ih (n + 1) h']

theorem allAngles_cons_pos (pr : String × List ℤ) (rest : List (String × List ℤ))
    (text : String) (h : phraseMatches pr.1 text = true) :
    allAngles (pr :: rest) text = pr.2 ++ allAngles rest text := by
  simp [allAngles, List.filter_cons, h]

theorem allAngles_cons_neg (pr : String × List ℤ) (rest : List (String × List ℤ))
    (text : String) (h : phraseMatches pr.1 text = false) :
    allAngles (pr :: rest) text = allAngles rest text := by
  simp [allAngles, List.filter_cons, h]

theorem runLoop_runAngles (cmds : List (String × List ℤ)) (text : String)
    (fail : Nat → Bool) (n : Nat) :
    (runLoop cmds text fail n).events = (runAngles (allAngles cmds text) fail n).1 ∧
    (runLoop cmds text fail n).calls = (runAngles (allAngles cmds text) fail n).2.1 ∧
    (runLoop cmds text fail n).err = (runAngles (allAngles cmds text) fail n).2.2 := by
  induction cmds generalizing n with
  | nil => simp [runLoop, allAngles, runAngles]
  | cons pr rest ih =>
    obtain ⟨phrase, angles⟩ := pr
    cases hm : phraseMatches phrase text with
    | false =>
      rw [allAngles_cons_neg (phrase, angles) rest text hm]
      simpa [runLoop, hm] using ih n
    | true =>
      rw [allAngles_cons_pos (phrase, angles) rest text hm]
      rcases hra : runAngles angles fail n with ⟨evs, n1, err⟩
      cases err with
      | some e =>
        have hne : (runAngles angles fail n).2.2 ≠ none := by rw [hra]; simp
        rw [runAngles_append_err _ _ _ _ hne, hra]
        simp [runLoop, hm, hra]
      | none =>
        have hok : (runAngles angles fail n).2.2 = none := by rw [hra]
        have happ := runAngles_append_ok angles (allAngles rest text) fail n hok
        rw [hra] at happ
        dsimp only at happ
        rw [happ]
        obtain ⟨ihe, ihc, ihr⟩ := ih n1
        simp [runLoop, hm, hra, ihe, ihc, ihr]

theorem runLoop_noFail (cmds : List (String × List ℤ)) (text : String) (n : Nat) :
    runLoop cmds text (fun _ => false) n =
      ⟨moveBlocks (allAngles cmds text), matchedPhrases cmds text,
        n + (allAngles cmds text).length, none⟩ := by
  induction cmds generalizing n with
  | nil => simp [runLoop, allAngles, matchedPhrases, moveBlocks]
  | cons pr rest ih =>
    obtain ⟨phrase, angles⟩ := pr
    cases hm : phraseMatches phrase text with
    | false =>
      have hmp : matchedPhrases ((phrase, angles) :: rest) text =
          matchedPhrases rest text := by
        simp [matchedPhrases, List.filter_cons, hm]
      rw [allAngles_cons_neg (phrase, angles) rest text hm, hmp]
      simpa [runLoop, hm] using ih n
    | true =>
      have hra := runAngles_noFail angles (fun _ => false) n (by simp)
      have hmp : matchedPhrases ((phrase, angles) :: rest) text =
          phrase :: matchedPhrases rest text := by
        simp [matchedPhrases, List.filter_cons, hm]
      rw [allAngles_cons_pos (phrase, angles) rest text hm, hmp]
      simp [runLoop, hm, hra, ih (n + angles.length), moveBlocks, Nat.add_assoc]

theorem matchedPhrases_eq_filter_keys (cmds : List (String × List ℤ)) (text : String) :
    matchedPhrases cmds text =
      (cmds.map (fun pr => pr.1)).filter (fun p => phraseMatches p text) := by
  induction cmds with
  | nil => rfl
  | cons pr rest ih =>
    cases hm : phraseMatches pr.1 text with
    | false => simp [matchedPhrases, List.filter_cons, hm] at ih ⊢; exact ih
    | true => simp [matchedPhrases, List.filter_cons, hm] at ih ⊢; exact ih

/-- C1 counterexample: a configuration whose only angle value is 90.5, a
value in range but not representable as a whole number, passes validation,
so validation does not fail on non-whole angle values as the claim states. -/
theorem validate_config_accepts_nonwhole_angle :
    validate_config ⟨some "s", some "v", some [("a", [mkRat 181 2])]⟩ =
        .ok (["s", "v"], []) ∧
      ¬ ∃ z : ℤ, (mkRat 181 2 : ℚ) = (z : ℚ) := by
  constructor
  · rfl
  · rintro ⟨z, hz⟩
    have h1 : (mkRat 181 2 : ℚ).den = 1 := by rw [hz]; exact Rat.den_intCast z
    have h2 : (mkRat 181 2 : ℚ).den = 2 := by decide
    rw [h1] at h2
    exact absurd h2 (by decide)

/-- C1 (amended): validation fails with a ConfigError exactly when one of
the required keys speech_service, servo, commands is absent, some phrase has
an empty angle list, or some raw angle value lies outside the closed range
0 to 180; whole-number representability is not checked. Otherwise it
succeeds, returning the speech service name and the servo name as the
required dependency names. -/
theorem validate_config_characterisation (c : RawConfig) :
    (exceptOk (validate_config c) = true ↔
      (c.speech_service.isSome = true ∧ c.servo.isSome = true ∧
        c.commands.isSome = true ∧
        ∀ pr ∈ c.commands.getD [], pr.2 ≠ [] ∧ ∀ q ∈ pr.2, 0 ≤ q ∧ q ≤ 180)) ∧
    (∀ ss sv, c.speech_service = some ss → c.servo = some sv →
      exceptOk (validate_config c) = true → validate_config c = .ok ([ss, sv], [])) ∧
    (exceptOk (validate_config c) = false → ∃ e, validate_config c = .error e) := by
  refine ⟨validate_config_ok_iff c,
    fun ss sv hss hsv hok => validate_config_ok_value c ss sv hss hsv hok, ?_⟩
  cases h : validate_config c with
  | error e => exact fun _ => ⟨e, rfl⟩
  | ok v => intro hc; simp [exceptOk] at hc

/-- C1 witness: a well-formed configuration validates and returns the two
dependency names. -/
theorem validate_config_characterisation_witness :
    validate_config ⟨some "s", some "v", some [("a", [(10:ℚ)]), ("b", [20, 30])]⟩ =
      .ok (["s", "v"], []) :=
  (validate_config_characterisation
    ⟨some "s", some "v", some [("a", [(10:ℚ)]), ("b", [20, 30])]⟩).2.1
    "s" "v" rfl rfl (by decide)

/-- C2: the matched output of the phrase loop collects exactly the
configured phrases whose lower-cased form occurs in the lower-cased heard
text, in table order, each at most once given that table keys are unique;
overlapping phrases all match the same utterance. -/
theorem matcher_characterisation (cmds : List (String × List ℤ)) (text : String)
    (hkeys : (cmds.map (fun pr => pr.1)).Nodup) :
    (runLoop cmds text (fun _ => false) 0).matched =
        (cmds.map (fun pr => pr.1)).filter (fun p => phraseMatches p text) ∧
    (∀ p, p ∈ (runLoop cmds text (fun _ => false) 0).matched ↔
        p ∈ cmds.map (fun pr => pr.1) ∧ phraseMatches p text = true) ∧
    (runLoop cmds text (fun _ => false) 0).matched.Sublist
        (cmds.map (fun pr => pr.1)) ∧
    (runLoop cmds text (fun _ => false) 0).matched.Nodup := by
  have hm : (runLoop cmds text (fun _ => false) 0).matched =
      matchedPhrases cmds text := by
    rw [runLoop_noFail]
  rw [hm, matchedPhrases_eq_filter_keys]
  refine ⟨rfl, ?_, List.filter_sublist _, hkeys.filter _⟩
  intro p
  simp [List.mem_filter]

/-- C2 witness: on the table with phrases a and b and a text containing
both, the matched output is both phrases in table order. -/
theorem matcher_characterisation_witness :
    (runLoop [("a", [(10:ℤ)]), ("b", [20, 30])] "please do a and b now"
        (fun _ => false) 0).matched = ["a", "b"] := by
  have h := (matcher_characterisation [("a", [(10:ℤ)]), ("b", [20, 30])]
    "please do a and b now" (by decide)).1
  rw [h]
  rfl

/-- C3: with every move succeeding, the trace of a dispatch that heard text
is the speech poll followed, for each matched phrase in table order and each
of its angles in order, by the move and the fixed one-unit delay; the servo
therefore receives exactly the concatenation of the matched angle sequences,
with no de-duplication across phrases sharing an angle sequence. -/
theorem sequencer_trace (st : ServiceState) (t : String) (ht : t ≠ "") :
    (do_command st true [some t] (fun _ => false)).1 =
        Event.poll :: moveBlocks (allAngles st.commands t) ∧
    movesOf (do_command st true [some t] (fun _ => false)).1 =
        (st.commands.filter (fun pr => phraseMatches pr.1 t)).flatMap
          (fun pr => pr.2) := by
  have hev : (do_command st true [some t] (fun _ => false)).1 =
      Event.poll :: moveBlocks (allAngles st.commands t) := by
    by_cases hm : (matchedPhrases st.commands t).length > 0 <;>
      simp [do_command, ht, runLoop_noFail, hm]
  refine ⟨hev, ?_⟩
  rw [hev]
  have hp : movesOf (Event.poll :: moveBlocks (allAngles st.commands t)) =
      movesOf (moveBlocks (allAngles st.commands t)) := rfl
  rw [hp, movesOf_moveBlocks]
  rfl

/-- C3 witness: on the example table, the dispatch trace is poll then the
moves 10, 20, 30 with the delay after each. -/
theorem sequencer_trace_witness :
    (do_command ⟨some "s", some "v", [("a", [(10:ℤ)]), ("b", [20, 30])]⟩ true
        [some "please do a and b now"] (fun _ => false)).1 =
      [Event.poll, Event.move 10, Event.sleep, Event.move 20, Event.sleep,
        Event.move 30, Event.sleep] := by
  have h := (sequencer_trace ⟨some "s", some "v", [("a", [(10:ℤ)]), ("b", [20, 30])]⟩
    "please do a and b now" (by decide)).1
  rw [h]
  rfl

/-- C4: when the j-th servo move call of a dispatch fails, the trace holds
exactly the earlier moves with their delays plus the failing move itself,
no later move is issued, the earlier moves are not undone, and the dispatch
surfaces the ActuatorError. -/
theorem failure_aborts_sequencing (st : ServiceState) (t : String) (j : Nat)
    (ht : t ≠ "") (hj : j < (allAngles st.commands t).length) :
    do_command st true [some t] (fun m => m == j) =
      (Event.poll :: (moveBlocks ((allAngles st.commands t).take j) ++
          [Event.move ((allAngles st.commands t).get ⟨j, hj⟩)]),
        .error (.moveFailed ((allAngles st.commands t).get ⟨j, hj⟩))) := by
  have hra := runAngles_failAt (allAngles st.commands t) 0 j hj
  simp only [Nat.zero_add] at hra
  obtain ⟨he, hc, herr⟩ := runLoop_runAngles st.commands t (fun m => m == j) 0
  rw [hra] at he herr
  dsimp only at he herr
  simp [do_command, ht, herr, he]

/-- C4 witness: on the example table, failing the second call (angle 20)
leaves the trace poll, move 10, delay, move 20 and surfaces the error; the
third move (angle 30) is never issued. -/
theorem failure_aborts_sequencing_witness :
    do_command ⟨some "s", some "v", [("a", [(10:ℤ)]), ("b", [20, 30])]⟩ true
        [some "please do a and b now"] (fun m => m == 1) =
      ([Event.poll, Event.move 10, Event.sleep, Event.move 20],
        .error (.moveFailed 20)) := by
  have h := failure_aborts_sequencing
    ⟨some "s", some "v", [("a", [(10:ℤ)]), ("b", [20, 30])]⟩
    "please do a and b now" 1 (by decide) (by decide)
  rw [h]
  rfl

/-- C5 counterexample: with table a mapped to [10] and heard text zzz that
matches nothing, the returned mapping has the literal status no voice
commands heard and carries only the heard text: it has no voice_commands
entry, so it does not carry an empty matched-phrase list as claimed. -/
theorem dispatch_outcome_no_match_cex :
    (do_command ⟨some "s", some "v", [("a", [(10:ℤ)])]⟩ true [some "zzz"]
        (fun _ => false)).2 =
      .ok (some ⟨"no voice commands heard", none, some "zzz"⟩) ∧
    (Outcome.mk "no voice commands heard" none (some "zzz")).voice_commands ≠
      some [] := by
  exact ⟨rfl, by simp⟩

/-- C5 (amended): a completed dispatch that heard text returns, when the
matched list is non-empty, the mapping with the literal status voice
commands heard, the matched phrases under voice_commands and the text under
heard; when nothing matched it returns the literal status no voice commands
heard with the heard text and no voice_commands entry. -/
theorem dispatch_outcome_statuses (st : ServiceState) (t : String) (ht : t ≠ "") :
    (matchedPhrases st.commands t ≠ [] →
      (do_command st true [some t] (fun _ => false)).2 =
        .ok (some ⟨"voice commands heard", some (matchedPhrases st.commands t),
          some t⟩)) ∧
    (matchedPhrases st.commands t = [] →
      (do_command st true [some t] (fun _ => false)).2 =
        .ok (some ⟨"no voice commands heard", none, some t⟩)) := by
  have h := runLoop_noFail st.commands t 0
  constructor
  · intro hne
    have hl : (matchedPhrases st.commands t).length > 0 := List.length_pos.mpr hne
    simp [do_command, ht, h, hl]
  · intro heq
    simp [do_command, ht, h, heq]

/-- C5 witness: on the example table and text, the outcome is the literal
status voice commands heard with phrases a and b and the heard text. -/
theorem dispatch_outcome_statuses_witness :
    (do_command ⟨some "s", some "v", [("a", [(10:ℤ)]), ("b", [20, 30])]⟩ true
        [some "please do a and b now"] (fun _ => false)).2 =
      .ok (some ⟨"voice commands heard", some ["a", "b"],
        some "please do a and b now"⟩) := by
  have h := (dispatch_outcome_statuses
    ⟨some "s", some "v", [("a", [(10:ℤ)]), ("b", [20, 30])]⟩
    "please do a and b now" (by decide)).1 (by decide)
  rw [h]
  rfl

/-- C6: when the speech collaborator yields no utterance, a None utterance,
or an empty utterance, the dispatch returns the no-command-heard outcome at
once; the trace holds only the speech poll, so neither matching nor
sequencing ran and no servo call was made. -/
theorem no_utterance_short_circuit (st : ServiceState) (utts : List (Option String))
    (fail : Nat → Bool) (h : utts = [] ∨ utts = [none] ∨ utts = [some ""]) :
    do_command st true utts fail =
      ([Event.poll], .ok (some ⟨"no voice command heard", none, none⟩)) := by
  rcases h with h | h | h <;> subst h <;> rfl

/-- C6 witness: the empty utterance list produces the no-command-heard
outcome with a poll-only trace. -/
theorem no_utterance_short_circuit_witness :
    do_command ⟨some "s", some "v", [("a", [(10:ℤ)])]⟩ true [] (fun _ => false) =
      ([Event.poll], .ok (some ⟨"no voice command heard", none, none⟩)) :=
  no_utterance_short_circuit ⟨some "s", some "v", [("a", [(10:ℤ)])]⟩ []
    (fun _ => false) (Or.inl rfl)

/-- C7: angles are accepted as raw rationals and range-checked on the raw
value, so 180.9 is rejected as out of range while the in-range non-whole
90.7 validates; conversion to integers happens only when reconfigure builds
the table, by truncation toward zero and not rounding, storing 90.7 as 90
where rounding would give 91. -/
theorem angle_numeric_policy :
    (∀ c : RawConfig, ∀ pr ∈ c.commands.getD [], ∀ q ∈ pr.2,
        exceptOk (validate_config c) = true → 0 ≤ q ∧ q ≤ 180) ∧
    validate_config ⟨some "s", some "v", some [("a", [mkRat 1809 10])]⟩ =
        .error (.angleOutOfRange "a") ∧
    validate_config ⟨some "s", some "v", some [("a", [mkRat 907 10])]⟩ =
        .ok (["s", "v"], []) ∧
    (reconfigure ⟨none, none, []⟩ ⟨some "s", some "v", some [("a", [mkRat 907 10])]⟩
        ["s", "v"]).commands = [("a", [90])] ∧
    pytrunc (mkRat 907 10) = 90 ∧
    round (mkRat 907 10 : ℚ) = 91 := by
  refine ⟨?_, rfl, rfl, by decide, by decide, ?_⟩
  · intro c pr hpr q hq hok
    exact (((validate_config_ok_iff c).mp hok).2.2.2 pr hpr).2 q hq
  · norm_num [Rat.mkRat_eq_div, round_eq]

/-- C7 witness: the accepted raw value 90.7 satisfies the range check on
the raw rational. -/
theorem angle_numeric_policy_witness :
    0 ≤ (mkRat 907 10 : ℚ) ∧ (mkRat 907 10 : ℚ) ≤ 180 :=
  angle_numeric_policy.1 ⟨some "s", some "v", some [("a", [mkRat 907 10])]⟩
    ("a", [mkRat 907 10]) (by decide) (mkRat 907 10) (by decide) (by decide)

/-- C8: reconfigure resolves dependencies by silently skipping names that
are not found: with the servo dependency absent from the resolved list, the
servo field is left unset (none) and reconfiguration completes instead of
failing with a DependencyResolutionError as the claim requires; the spec
itself flags this source behaviour as a latent bug. -/
theorem reconfigure_missing_dependency_silent :
    reconfigure ⟨none, none, []⟩ ⟨some "s", some "v", some [("a", [mkRat 90 1])]⟩
        ["s"] =
      ⟨some "s", none, [("a", [90])]⟩ := by
  decide

/-- C9 counterexample: a configuration whose commands struct has the empty
string as its only phrase key passes validation, the built table contains
the empty phrase, and the empty phrase matches any utterance, so the claimed
non-emptiness of table phrase keys fails on the code. -/
theorem empty_phrase_reaches_table :
    validate_config ⟨some "s", some "v", some [("", [mkRat 90 1])]⟩ =
        .ok (["s", "v"], []) ∧
    (reconfigure ⟨none, none, []⟩ ⟨some "s", some "v", some [("", [mkRat 90 1])]⟩
        ["s", "v"]).commands = [("", [90])] ∧
    phraseMatches "" "anything" = true := by
  exact ⟨rfl, by decide, by decide⟩

/-- C9 (amended): the phrase keys of the table built by reconfigure from a
validated configuration are exactly the string keys of the configured
commands mapping, in order; they are not checked for non-emptiness, so an
empty-string phrase can reach matching. -/
theorem table_keys_are_config_keys (st : ServiceState) (c : RawConfig)
    (deps : List String) (_hok : exceptOk (validate_config c) = true) :
    ((reconfigure st c deps).commands).map (fun pr => pr.1) =
      (c.commands.getD []).map (fun pr => pr.1) := by
  simp [reconfigure]

/-- C9 witness: the table built from the validated configuration with the
empty phrase key has exactly that key. -/
theorem table_keys_are_config_keys_witness :
    ((reconfigure ⟨none, none, []⟩ ⟨some "s", some "v", some [("", [mkRat 90 1])]⟩
        ["s", "v"]).commands).map (fun pr => pr.1) = [""] := by
  have h := table_keys_are_config_keys ⟨none, none, []⟩
    ⟨some "s", some "v", some [("", [mkRat 90 1])]⟩ ["s", "v"] (by decide)
  rw [h]
  rfl

/-- C10: a request without a truthy listen_for_command flag makes no
collaborator call at all and the function falls off the end, returning the
Python None instead of a status mapping. -/
theorem no_listen_returns_none (st : ServiceState) (utts : List (Option String))
    (fail : Nat → Bool) :
    do_command st false utts fail = ([], .ok none) := rfl

end VoiceServo
